import Mathlib

/-!
Verification development for the e2b_hackathon backend service.

The Python source (src/backend/app.py and friends) is shallowly embedded:
Python strings are modelled as `List Char`, Python dicts keyed by session id
as association lists, the LLM backend as an explicit `Except Unit (List Char)`
argument (`.error` models a raised exception inside the `try` block), and the
remote execution sandbox as a stub outcome function.  Character-level
operations model the ASCII behaviour of Python's `str.lower`, `str.strip`,
`str.title` and the `\s` regex class.
-/

namespace E2B

/-- The backtick character (0x60), built by code point to keep source plain. -/
def btick : Char := Char.ofNat 96

/-- Python whitespace (the ASCII part of `str.isspace` / regex `\s`). -/
def isPyWs (c : Char) : Bool :=
  c = ' ' || c = '\t' || c = '\n' || c = '\r' || c = '\x0b' || c = '\x0c'

/-- Python `str.lstrip()` on a character list. -/
def pyLstrip (l : List Char) : List Char := l.dropWhile isPyWs

/-- Python `str.rstrip()` on a character list. -/
def pyRstrip (l : List Char) : List Char := (l.reverse.dropWhile isPyWs).reverse

/-- Python `str.strip()` on a character list. -/
def pyStrip (l : List Char) : List Char := pyRstrip (pyLstrip l)

/-- Python `str.lower()` (ASCII behaviour). -/
def pyLower (l : List Char) : List Char := l.map Char.toLower

/-- Index of the first occurrence of `pat` in `s` (Python `str.find` when
    the result is interpreted as `-1` for `none`). -/
def findSub (pat : List Char) : List Char → Option Nat
  | [] => if pat.isPrefixOf ([] : List Char) then some 0 else none
  | c :: rest =>
    if pat.isPrefixOf (c :: rest) then some 0 else (findSub pat rest).map (· + 1)

/-- Python's `pat in s` substring test. -/
def isSubstr (pat s : List Char) : Bool := (findSub pat s).isSome

/-- Python `s.split('\n')`: always returns at least one (possibly empty) line. -/
def splitLinesChar : List Char → List (List Char)
  | [] => [[]]
  | c :: rest =>
    if c = '\n' then [] :: splitLinesChar rest
    else
      match splitLinesChar rest with
      | [] => [[c]]
      | l :: ls => (c :: l) :: ls

/-- Python `'\n'.join(lines)`. -/
def joinLinesChar : List (List Char) → List Char
  | [] => []
  | [l] => l
  | l :: l' :: rest => l ++ '\n' :: joinLinesChar (l' :: rest)

/-! ## fix_code_indentation (src/backend/app.py lines 2136-2175) -/

/-- The dedent keywords of app.py line 2153:
    `stripped.startswith(('elif ', 'else:', 'except ', 'finally:'))`. -/
def dedentKeywords : List (List Char) :=
  ["elif ".toList, "else:".toList, "except ".toList, "finally:".toList]

/-- The guard of app.py line 2148: `if not stripped or stripped.startswith('#')`
    (on the already-stripped line). -/
def lineIsSkippable (stripped : List Char) : Prop :=
  stripped = [] ∨ stripped.take 1 = ['#']

instance (stripped : List Char) : Decidable (lineIsSkippable stripped) := by
  unfold lineIsSkippable
  infer_instance

/-- The new indent level after one non-skippable line (app.py lines
    2152-2163): apply the pending indent unless the line is a dedent keyword,
    then dedent keywords drop one level (`max(0, level - 4)` is Nat
    subtraction). -/
def stepLevel (level : Nat) (pending : Bool) (stripped : List Char) : Nat :=
  let isDedent := dedentKeywords.any (fun k => k.isPrefixOf stripped)
  let level1 := if pending && !isDedent then level + 4 else level
  if isDedent then level1 - 4 else level1

/-- The new pending flag after one non-skippable line (app.py lines
    2169-2173): the line opens a block iff it ends with `:` and is not a
    comment. -/
def stepPending (stripped : List Char) : Bool :=
  decide (stripped.getLast? = some ':') && !(decide (stripped.take 1 = ['#']))

/-- One-pass state machine over the split lines, with the loop state
    `indent_level` (spaces) and `pending_indent` of app.py lines 2140-2173.
    Blank and comment lines are emitted unchanged and leave the state alone;
    every other line is re-emitted as the computed indent followed by its
    stripped text. -/
def fixLines (level : Nat) (pending : Bool) : List (List Char) → List (List Char)
  | [] => []
  | line :: rest =>
    let stripped := pyLstrip line
    if lineIsSkippable stripped then
      line :: fixLines level pending rest
    else
      (List.replicate (stepLevel level pending stripped) ' ' ++ stripped)
        :: fixLines (stepLevel level pending stripped) (stepPending stripped) rest

/-- `fix_code_indentation` (app.py lines 2136-2175): split on newlines, run the
    indentation state machine starting at level 0 with no pending indent, and
    rejoin with newlines. -/
def fix_code_indentation (code : List Char) : List Char :=
  joinLinesChar (fixLines 0 false (splitLinesChar code))

/-! ## extract_code_from_response (src/backend/app.py lines 2177-2239)

Methods 1-4 are `re.findall(pattern, text, re.DOTALL)` followed by
`matches[0]`, i.e. the leftmost position at which the whole pattern matches.
For the patterns with a mandatory newline the engine's greedy
backtracking over `\s*\n` only moves whitespace characters in or out of the
lazy capture group `(.*?)`; since the source immediately applies `.strip()`
to the capture, the embedding places the capture start at the end of the
whitespace run without changing the stripped value, and it places the capture
end at the first closing fence, which is what the lazy group produces. -/

/-- The closing (and generic opening) fence, three backticks. -/
def fenceTok : List Char := [btick, btick, btick]

/-- The python-tagged opening fence. -/
def pyFenceTok : List Char := fenceTok ++ "python".toList

/-- Body of a fenced match with a mandatory newline (`\s*\n(.*?)` + fence):
    `rest` is the text after the opening fence token.  Succeeds when the
    whitespace run after the token contains a newline and a closing fence
    follows; the capture runs to the first closing fence. -/
def fenceBodyNl (rest : List Char) : Option (List Char) :=
  let run := rest.takeWhile isPyWs
  if '\n' ∈ run then
    let body := rest.dropWhile isPyWs
    match findSub fenceTok body with
    | some j => some (body.take j)
    | none => none
  else none

/-- Body of a fenced match without the newline requirement (`(.*?)` + fence). -/
def fenceBodyRaw (rest : List Char) : Option (List Char) :=
  match findSub fenceTok rest with
  | some j => some (rest.take j)
  | none => none

/-- Leftmost-match scan: at each position, if `tok` starts there and `body`
    succeeds on the remainder, that match is returned; otherwise the scan
    advances one character (the regex engine's behaviour for `findall`'s
    first element). -/
def scanFence (tok : List Char) (body : List Char → Option (List Char)) :
    List Char → Option (List Char)
  | [] => none
  | c :: rest =>
    match (if tok.isPrefixOf (c :: rest) then body ((c :: rest).drop tok.length) else none) with
    | some r => some r
    | none => scanFence tok body rest

/-- Method 5 condition (app.py line 2223): the reply contains import-like
    statements and references to known data-analysis libraries. -/
def looksLikeRawCode (text : List Char) : Bool :=
  isSubstr "import".toList text &&
    (isSubstr "pandas".toList text || isSubstr "matplotlib".toList text ||
     isSubstr "pd.".toList text || isSubstr "plt.".toList text)

/-- Method 6 condition (app.py line 2231): dataframe-style method calls and
    more than two lines. -/
def looksLikePandasOps (text : List Char) : Bool :=
  (isSubstr "df.".toList text || isSubstr "pd.".toList text) &&
    decide ((splitLinesChar text).length > 2)

/-- `extract_code_from_response` (app.py lines 2177-2239): six extraction
    methods tried in order, each successful extraction is stripped and passed
    through `fix_code_indentation`; `none` models Python's `return None`. -/
def extract_code_from_response (text : List Char) : Option (List Char) :=
  match scanFence pyFenceTok fenceBodyNl text with
  | some c => some (fix_code_indentation (pyStrip c))
  | none =>
  match scanFence fenceTok fenceBodyNl text with
  | some c => some (fix_code_indentation (pyStrip c))
  | none =>
  match scanFence pyFenceTok fenceBodyRaw text with
  | some c => some (fix_code_indentation (pyStrip c))
  | none =>
  match scanFence fenceTok fenceBodyRaw text with
  | some c => some (fix_code_indentation (pyStrip c))
  | none =>
  if looksLikeRawCode text then some (fix_code_indentation (pyStrip text))
  else if looksLikePandasOps text then some (fix_code_indentation (pyStrip text))
  else none

/-! ## determine_query_type_with_llm (src/backend/app.py lines 1139-1255)

The Groq call is modelled as an `Except Unit (List Char)` argument: `.ok r`
is the model reply `response.choices[0].message.content`, `.error ()` models
any exception raised inside the `try` block (the prompt construction itself
cannot raise).  `csv_columns` only feeds the prompt text, which the model
argument replaces, so it does not appear. -/

/-- The classifier token `'csv_only'`. -/
def qtCsvOnly : List Char := "csv_only".toList

/-- The classifier token `'web_search_only'`. -/
def qtWeb : List Char := "web_search_only".toList

/-- The classifier token `'document_search'`. -/
def qtDoc : List Char := "document_search".toList

/-- The classifier token `'both'`. -/
def qtBoth : List Char := "both".toList

/-- The classifier token `'needs_csv'`. -/
def qtNeedsCsv : List Char := "needs_csv".toList

/-- `valid_types` (app.py line 1199), in loop order. -/
def valid_types : List (List Char) :=
  [qtCsvOnly, qtWeb, qtDoc, qtBoth, qtNeedsCsv]

/-- `document_keywords` (app.py line 1212). -/
def document_keywords : List (List Char) :=
  ["document".toList, "file".toList, "uploaded".toList, "downloaded".toList,
   "what does it say".toList, "summarize the document".toList,
   "in the document".toList, "from the file".toList, "in the file".toList,
   "what\x27s in the document".toList]

/-- `research_keywords` of the main path (app.py line 1222). -/
def research_keywords : List (List Char) :=
  ["research".toList, "search".toList, "find".toList, "look up".toList,
   "tell me".toList, "what is".toList, "who is".toList,
   "information about".toList]

/-- `research_keywords` of the exception-fallback path (app.py line 1251). -/
def fallback_research_keywords : List (List Char) :=
  ["research".toList, "search".toList, "find".toList, "look up".toList,
   "tell me".toList, "what is".toList]

/-- `any(keyword in message_lower for keyword in keywords)`. -/
def anyKeywordIn (keywords : List (List Char)) (messageLower : List Char) : Bool :=
  keywords.any (fun k => isSubstr k messageLower)

/-- Lines 1196-1203: strip and lowercase the reply, then take the first
    `valid_types` member occurring in it as a substring (the raw lowered
    reply is kept when none occurs). -/
def sanitize_query_type (reply : List Char) : List Char :=
  let qt0 := pyLower (pyStrip reply)
  match valid_types.find? (fun t => isSubstr t qt0) with
  | some t => t
  | none => qt0

/-- Lines 1205-1208 (and again lines 1238-1241): `document_search` without
    documents becomes `web_search_only`. -/
def override_document_search_absent (has_documents : Bool) (qt : List Char) :
    List Char :=
  if qt = qtDoc && !has_documents then qtWeb else qt

/-- Lines 1210-1218: with documents attached and a document keyword in the
    message, force `document_search` unless already `document_search`/`both`. -/
def override_document_keywords (message : List Char) (has_documents : Bool)
    (qt : List Char) : List Char :=
  if has_documents && anyKeywordIn document_keywords (pyLower message)
      && !(qt = qtDoc || qt = qtBoth) then qtDoc else qt

/-- Lines 1220-1227: with no CSV and no documents and a research keyword in
    the message, force `web_search_only`. -/
def override_research_keywords (message : List Char)
    (has_csv_data has_documents : Bool) (qt : List Char) : List Char :=
  if !has_csv_data && !has_documents
      && anyKeywordIn research_keywords (pyLower message)
      && !(qt = qtWeb) then qtWeb else qt

/-- Lines 1229-1236: `needs_csv` without CSV data becomes `document_search`
    when documents exist, else `web_search_only`. -/
def rewrite_needs_csv (has_csv_data has_documents : Bool) (qt : List Char) :
    List Char :=
  if qt = qtNeedsCsv && !has_csv_data then
    (if has_documents then qtDoc else qtWeb)
  else qt

/-- Line 1243: the final return expression with its resource-based default. -/
def classifier_return (has_csv_data has_documents : Bool) (qt : List Char) :
    List Char :=
  if qt ∈ valid_types then qt
  else if !has_csv_data && !has_documents then qtWeb
  else if has_documents then qtDoc
  else qtCsvOnly

/-- Lines 1245-1255: the fallback used when anything inside the `try` block
    raises. -/
def classifier_exception_fallback (message : List Char) (has_csv_data : Bool) :
    List Char :=
  if !has_csv_data then qtWeb
  else if anyKeywordIn fallback_research_keywords (pyLower message) then qtWeb
  else qtCsvOnly

/-- `determine_query_type_with_llm` (app.py lines 1139-1255): sanitize the
    model reply, apply the safety overrides of lines 1205-1241 in source
    order, and finish with the line-1243 return expression; any exception
    takes the lines-1245-1255 fallback. -/
def determine_query_type_with_llm (message : List Char) (has_csv_data : Bool)
    (has_documents : Bool) (llm : Except Unit (List Char)) : List Char :=
  match llm with
  | .error _ => classifier_exception_fallback message has_csv_data
  | .ok reply =>
    classifier_return has_csv_data has_documents
      (override_document_search_absent has_documents
        (rewrite_needs_csv has_csv_data has_documents
          (override_research_keywords message has_csv_data has_documents
            (override_document_keywords message has_documents
              (override_document_search_absent has_documents
                (sanitize_query_type reply))))))

/-- The chat endpoint's own needs_csv rewrite (app.py lines 1392-1399).
    Line 1399 `query_type = 'web_search_only'` is indented at the level of the
    inner `if has_documents:` statement, not inside its `else:` arm, so it
    runs unconditionally whenever the outer condition holds: the
    `document_search` assignment of line 1396 (performed right after printing
    "Overriding needs_csv to document_search (documents available)") is
    immediately overwritten. -/
def chat_needs_csv_rewrite (query_type : List Char) (has_csv has_documents : Bool) :
    List Char :=
  if query_type = "needs_csv".toList && !has_csv then
    let _afterInnerIf :=
      if has_documents then "document_search".toList else query_type
    "web_search_only".toList
  else query_type

/-! ## The code generation repair loop (src/backend/app.py lines 1722-1856)

One loop iteration makes one model call and classifies the attempt as:
no code extracted (line 1752), syntax error (line 1771), runtime error
reported by the sandbox (line 1798), or success (line 1837).  The stub
backend maps the current `retry_count` to that outcome.  The `while` loop
`retry_count < MAX_RETRIES and not execution_successful` is embedded with
fuel `MAX_RETRIES - retry_count`, which the failure paths (`retry_count += 1;
continue`) decrease by one.  The result is `(retry_count, execution_successful,
number of backend calls made)`. -/

/-- Outcome of one attempt of the repair loop, as reported by the stubbed
    model + sandbox backend. -/
inductive AttemptOutcome
  | noCode
  | syntaxError
  | runtimeError
  | success
deriving DecidableEq

/-- `MAX_RETRIES` (app.py line 1727). -/
def MAX_RETRIES : Nat := 10

/-- The loop body iterated on fuel (`MAX_RETRIES - retry_count`). -/
def repairLoopGo (backend : Nat → AttemptOutcome) :
    Nat → Nat → Nat × Bool × Nat
  | 0, retry => (retry, false, 0)
  | fuel + 1, retry =>
    match backend retry with
    | .success => (retry, true, 1)
    | _ =>
      let r := repairLoopGo backend fuel (retry + 1)
      (r.1, r.2.1, r.2.2 + 1)

/-- The chat endpoint's repair loop (app.py lines 1727-1837), starting from
    `retry_count = 0` with `MAX_RETRIES = 10`. -/
def chat_repair_loop (backend : Nat → AttemptOutcome) : Nat × Bool × Nat :=
  repairLoopGo backend MAX_RETRIES 0

/-- The terminal error text of app.py line 1841,
    `f"Code failed to execute successfully after {MAX_RETRIES} attempts"`. -/
def repair_failure_message (maxRetries : Nat) : String :=
  "Code failed to execute successfully after " ++ toString maxRetries ++ " attempts"

/-! ## Result interpretation (src/backend/app.py lines 1963-1997 and 2052-2059)

`execution_has_output` is the flag computed at lines 1865-1891 (captured
stdout or stderr nonempty).  The secondary explanation LLM call is the
`Except Unit String` argument.  The saved chart list `csv_charts` is passed
through so the embedding shows which inputs the source consults: the
explanation text never reads it. -/

/-- `csv_analysis_result` as assigned at app.py lines 1967-1997. -/
def chat_csv_analysis_result (execution_has_output : Bool)
    (llm : Except Unit String) (results_summary : String) (retry_count : Nat)
    (csv_charts : List String) : String :=
  if execution_has_output then
    match llm with
    | .ok explanation => explanation
    | .error _ =>
      -- line 1995
      "Analysis completed. Results:\n" ++ results_summary.take 1000
  else
    -- line 1997, independent of csv_charts
    let _charts := csv_charts
    "Code executed successfully after " ++ toString (retry_count + 1) ++ " attempt(s)."

/-- The response field of the csv_only reply (app.py line 2053):
    `csv_analysis_result or "Analysis completed."` — Python `or` falls through
    on the empty string. -/
def chat_csv_response_text (csv_analysis_result : String) : String :=
  if csv_analysis_result = "" then "Analysis completed." else csv_analysis_result

/-! ## Feature advantage / gap sets
    (src/backend/generators/comparison_table.py lines 154-233)

A company record is modelled by its list of feature names: the source reads
`feature.get("name", "") if isinstance(feature, dict) else feature` for each
entry, skips empty names, and collects the lowercased names into a Python
set.  The Finsets below are exactly those sets; `identify_advantages` /
`identify_gaps` format each element of `user_features - competitor_features`
resp. `competitor_features - user_features` into one description string, in
Python set iteration order. -/

/-- A company or competitor record reduced to its feature-name list. -/
structure CompanyData where
  features : List (List Char)
deriving DecidableEq

/-- The lowercased set of nonempty feature names of one record
    (comparison_table.py lines 168-172 and 175-180). -/
def featureNameSet (features : List (List Char)) : Finset (List Char) :=
  ((features.filter (fun f => !(f = []))).map pyLower).toFinset

/-- `user_features` (comparison_table.py lines 168-172 / 205-209). -/
def user_features (company : CompanyData) : Finset (List Char) :=
  featureNameSet company.features

/-- `competitor_features` (comparison_table.py lines 175-180 / 212-217). -/
def competitor_features (competitors : List CompanyData) : Finset (List Char) :=
  competitors.foldr (fun comp acc => featureNameSet comp.features ∪ acc) ∅

/-- `unique_features = user_features - competitor_features`
    (comparison_table.py line 183), the set `identify_advantages` reports. -/
def identify_advantages_set (company : CompanyData) (competitors : List CompanyData) :
    Finset (List Char) :=
  user_features company \ competitor_features competitors

/-- `missing_features = competitor_features - user_features`
    (comparison_table.py line 220), the set `identify_gaps` reports. -/
def identify_gaps_set (company : CompanyData) (competitors : List CompanyData) :
    Finset (List Char) :=
  competitor_features competitors \ user_features company

/-- The features shared by the profile and at least one competitor. -/
def shared_features (company : CompanyData) (competitors : List CompanyData) :
    Finset (List Char) :=
  user_features company ∩ competitor_features competitors

/-- Every (lowercased, nonempty) feature name appearing in the profile or in
    any competitor record. -/
def all_feature_names (company : CompanyData) (competitors : List CompanyData) :
    Finset (List Char) :=
  user_features company ∪ competitor_features competitors

/-! ## Session registry and teardown (src/backend/app.py lines 35-36, 82-103,
    2116-2125)

`active_sandboxes` and `uploaded_files` are the process-wide dicts keyed by
session id.  The stub sandbox backend hands out handles from a counter
(`nextHandle`) and records every `close()` call in `closedLog`; the Python
code swallows close-time exceptions (lines 99-100), so closing is total. -/

/-- The registry state: the two session-keyed dicts, plus the stub backend's
    handle counter and close log. -/
structure SandboxRegistry where
  active : List (List Char × Nat)
  uploaded : List (List Char × List (List Char))
  nextHandle : Nat
  closedLog : List Nat
deriving DecidableEq

/-- Dict lookup (`d[k]` / `k in d`) on an association list. -/
def findSession {α : Type} (k : List Char) : List (List Char × α) → Option α
  | [] => none
  | (k', v) :: rest => if k' = k then some v else findSession k rest

/-- Dict deletion `del d[k]` (dict keys are unique, so removing every pair
    with the key is the same operation). -/
def removeSession {α : Type} (k : List Char) (l : List (List Char × α)) :
    List (List Char × α) :=
  l.filter (fun p => !(p.1 = k))

/-- `get_or_create_sandbox` (app.py lines 82-86) against the stub backend:
    returns the session's handle and the updated registry. -/
def get_or_create_sandbox (session_id : List Char) (st : SandboxRegistry) :
    Nat × SandboxRegistry :=
  match findSession session_id st.active with
  | some h => (h, st)
  | none =>
    (st.nextHandle,
     { st with active := (session_id, st.nextHandle) :: st.active,
               nextHandle := st.nextHandle + 1 })

/-- `cleanup_sandbox` (app.py lines 88-103): close and deregister the
    session's sandbox if present, then drop the session's uploaded files. -/
def cleanup_sandbox (session_id : List Char) (st : SandboxRegistry) :
    SandboxRegistry :=
  let st1 :=
    match findSession session_id st.active with
    | some h =>
      { st with closedLog := st.closedLog ++ [h],
                active := removeSession session_id st.active }
    | none => st
  if (findSession session_id st1.uploaded).isSome then
    { st1 with uploaded := removeSession session_id st1.uploaded }
  else st1

/-- `close_session` (app.py lines 2116-2125): runs `cleanup_sandbox` and
    always answers success (close-time errors are swallowed inside
    `cleanup_sandbox`, lines 99-100). -/
def close_session (session_id : List Char) (st : SandboxRegistry) :
    Bool × SandboxRegistry :=
  (true, cleanup_sandbox session_id st)

/-! ## parse_competitor_results
    (src/backend/services/competitor_discovery.py lines 171-257)

The URL regex `https?://[^\s<>"]+|www\.[^\s<>"]+` is embedded as a
non-overlapping leftmost scan: alternative one fixes the scheme literally
(`s?` can only take the `s` when the text has it), the body class
`[^\s<>"]+` is a nonempty greedy run.  The domain regex
`(?:https?://)?(?:www\.)?([^/]+)` is embedded with the engine's greedy
option order: scheme if it is literally present, then `www.`, then a
nonempty run of non-`/` characters, backtracking each optional group to
empty before advancing the start position. -/

/-- A character admitted by the regex class `[^\s<>"]`. -/
def urlBodyChar (c : Char) : Bool :=
  !(isPyWs c || c = '<' || c = '>' || c = '"')

/-- Length of a URL-regex match starting exactly here, if any. -/
def urlMatchLen (cs : List Char) : Option Nat :=
  if "http://".toList.isPrefixOf cs then
    let body := (cs.drop 7).takeWhile urlBodyChar
    if body = [] then none else some (7 + body.length)
  else if "https://".toList.isPrefixOf cs then
    let body := (cs.drop 8).takeWhile urlBodyChar
    if body = [] then none else some (8 + body.length)
  else if "www.".toList.isPrefixOf cs then
    let body := (cs.drop 4).takeWhile urlBodyChar
    if body = [] then none else some (4 + body.length)
  else none

/-- The scan loop behind `re.findall(url_pattern, result_text)`: on a match
    emit it and continue after its end, else advance one character.  The fuel
    argument only bounds the recursion; every step consumes at least one
    character (a successful `urlMatchLen` is at least the scheme length), so
    fuel `cs.length` never runs out. -/
def findUrlsGo : Nat → List Char → List (List Char)
  | 0, _ => []
  | _, [] => []
  | fuel + 1, c :: rest =>
    match urlMatchLen (c :: rest) with
    | some k => (c :: rest).take k :: findUrlsGo fuel ((c :: rest).drop k)
    | none => findUrlsGo fuel rest

/-- `re.findall(url_pattern, result_text)` (competitor_discovery.py lines
    186-187): non-overlapping leftmost matches. -/
def findUrls (cs : List Char) : List (List Char) := findUrlsGo cs.length cs

/-- `url.rstrip('.,;:)')` (competitor_discovery.py line 193). -/
def rstripPunct (l : List Char) : List Char :=
  (l.reverse.dropWhile (fun c => c = '.' || c = ',' || c = ';' || c = ':' || c = ')')).reverse

/-- The capture `([^/]+)`: a nonempty run of non-slash characters. -/
def domainRun (v : List Char) : Option (List Char) :=
  let d := v.takeWhile (fun c => !(c = '/'))
  if d = [] then none else some d

/-- `(?:www\.)?([^/]+)`: try with the `www.` consumed, then without. -/
def domainAfterWww (v : List Char) : Option (List Char) :=
  match (if "www.".toList.isPrefixOf v then domainRun (v.drop 4) else none) with
  | some d => some d
  | none => domainRun v

/-- The whole domain pattern anchored at this position. -/
def domainMatchAt (u : List Char) : Option (List Char) :=
  match (if "https://".toList.isPrefixOf u then domainAfterWww (u.drop 8) else none) with
  | some d => some d
  | none =>
  match (if "http://".toList.isPrefixOf u then domainAfterWww (u.drop 7) else none) with
  | some d => some d
  | none => domainAfterWww u

/-- `re.search(r'(?:https?://)?(?:www\.)?([^/]+)', url)` then `.group(1)`
    (competitor_discovery.py lines 196-198): leftmost position at which the
    pattern matches. -/
def extractDomain : List Char → Option (List Char)
  | [] => none
  | c :: rest =>
    match domainMatchAt (c :: rest) with
    | some d => some d
    | none => extractDomain rest

/-- Python `str.title()` (ASCII behaviour): uppercase the first letter of
    each alphabetic run, lowercase the rest. -/
def pyTitleGo (prevAlpha : Bool) : List Char → List Char
  | [] => []
  | c :: rest =>
    (if c.isAlpha then (if prevAlpha then c.toLower else c.toUpper) else c)
      :: pyTitleGo c.isAlpha rest

def pyTitle (l : List Char) : List Char := pyTitleGo false l

/-- `re.split(r'[.!?\n]', context)` (competitor_discovery.py line 250). -/
def splitSentences : List Char → List (List Char)
  | [] => [[]]
  | c :: rest =>
    if c = '.' || c = '!' || c = '?' || c = '\n' then
      [] :: splitSentences rest
    else
      match splitSentences rest with
      | [] => [[c]]
      | l :: ls => (c :: l) :: ls

/-- `extract_description_near_url` (competitor_discovery.py lines 227-257). -/
def extract_description_near_url (text url : List Char) : List Char :=
  match findSub url text with
  | none => []
  | some url_pos =>
    let start := url_pos - 100
    let stop := min text.length (url_pos + url.length + 100)
    let context := (text.drop start).take (stop - start)
    let sentences := splitSentences context
    match sentences.find? (fun s => isSubstr url s || decide (s.length > 20)) with
    | some s => pyStrip s
    | none => []

/-- One discovered competitor record (the dict appended at
    competitor_discovery.py lines 218-222). -/
structure Competitor where
  name : List Char
  url : List Char
  description : List Char
deriving DecidableEq

/-- The per-URL loop of `parse_competitor_results` (competitor_discovery.py
    lines 190-223), carrying `seen_domains`.  Each kept entry is paired with
    the domain the loop computed for it. -/
def parseCompetitorsGo (result_text exclude_company : List Char)
    (seen_domains : List (List Char)) :
    List (List Char) → List (List Char × Competitor)
  | [] => []
  | url0 :: rest =>
    let url1 := rstripPunct url0
    match extractDomain url1 with
    | none => parseCompetitorsGo result_text exclude_company seen_domains rest
    | some domain =>
      if domain ∈ seen_domains then
        parseCompetitorsGo result_text exclude_company seen_domains rest
      else if !(exclude_company = []) &&
          isSubstr (pyLower exclude_company) (pyLower domain) then
        parseCompetitorsGo result_text exclude_company seen_domains rest
      else
        let url2 := if "http".toList.isPrefixOf url1 then url1
          else "https://".toList ++ url1
        let cname := pyTitle (domain.takeWhile (fun c => !(c = '.')))
        let desc := extract_description_near_url result_text url2
        (domain, ⟨cname, url2, desc⟩)
          :: parseCompetitorsGo result_text exclude_company (domain :: seen_domains) rest

/-- The (domain, entry) pairs the loop keeps, starting from an empty
    `seen_domains`. -/
def parse_competitor_entries (result_text exclude_company : List Char) :
    List (List Char × Competitor) :=
  parseCompetitorsGo result_text exclude_company [] (findUrls result_text)

/-- `parse_competitor_results` (competitor_discovery.py lines 171-224). -/
def parse_competitor_results (result_text exclude_company : List Char) :
    List Competitor :=
  (parse_competitor_entries result_text exclude_company).map (fun p => p.2)

/-! # Theorems -/

/-! ## C1: the needs_csv rewrites -/

/-- Claim C1, refuting theorem.  First conjunct: the chat endpoint's own
    needs_csv rewrite (app.py lines 1392-1399) yields `web_search_only` even
    with documents attached, because line 1399 runs unconditionally — the
    code assigns `document_search` right after logging that it is overriding
    to document_search, then overwrites it.  Second conjunct: with tabular
    data attached, `determine_query_type_with_llm` returns the raw
    `needs_csv` to its caller (the line-1230 rewrite is guarded by
    `not has_csv_data`). -/
theorem needs_csv_rewrite_bug :
    chat_needs_csv_rewrite qtNeedsCsv false true = qtWeb
    ∧ determine_query_type_with_llm "hello".toList true true (.ok qtNeedsCsv)
        = qtNeedsCsv := by
  constructor
  · decide
  · decide

/-! ## C2: the repair loop attempt bound -/

theorem repairLoopGo_all_fail (backend : Nat → AttemptOutcome)
    (h : ∀ n, backend n ≠ AttemptOutcome.success) :
    ∀ fuel retry, repairLoopGo backend fuel retry = (retry + fuel, false, fuel) := by
  intro fuel
  induction fuel with
  | zero => intro retry; simp [repairLoopGo]
  | succ f ih =>
    intro retry
    unfold repairLoopGo
    cases hb : backend retry with
    | success => exact absurd hb (h retry)
    | noCode => rw [ih (retry + 1)]; simp; omega
    | syntaxError => rw [ih (retry + 1)]; simp; omega
    | runtimeError => rw [ih (retry + 1)]; simp; omega

/-- Claim C2: against a backend that reports a runtime error on every
    attempt, the repair loop terminates with `retry_count = 10`, no success,
    and exactly 10 backend calls (no eleventh attempt), and the terminal
    error is the `Code failed to execute successfully after 10 attempts`
    message of app.py line 1841. -/
theorem repair_loop_exhausts_after_ten_attempts (backend : Nat → AttemptOutcome)
    (h : ∀ n, backend n ≠ AttemptOutcome.success) :
    chat_repair_loop backend = (10, false, 10)
    ∧ repair_failure_message MAX_RETRIES =
        "Code failed to execute successfully after 10 attempts" := by
  refine ⟨?_, by decide⟩
  have hgo := repairLoopGo_all_fail backend h MAX_RETRIES 0
  simpa [chat_repair_loop, MAX_RETRIES] using hgo

/-- Witness for C2: the constant runtime-error backend. -/
theorem repair_loop_exhausts_after_ten_attempts_witness :
    chat_repair_loop (fun _ => AttemptOutcome.runtimeError) = (10, false, 10)
    ∧ repair_failure_message MAX_RETRIES =
        "Code failed to execute successfully after 10 attempts" :=
  repair_loop_exhausts_after_ten_attempts _ (fun _ => by decide)

/-! ## C3: the research-keyword override -/

theorem classifier_tail_fixes_web (has_csv_data has_documents : Bool) :
    classifier_return has_csv_data has_documents
      (override_document_search_absent has_documents
        (rewrite_needs_csv has_csv_data has_documents qtWeb)) = qtWeb := by
  cases has_csv_data <;> cases has_documents <;> decide

/-- Claim C3: with `has_tabular = false`, `has_documents = false` and a
    research keyword in the lowercased message, the classifier returns
    `web_search_only` for every model reply, including a raising backend. -/
theorem classifier_research_keyword_override (message : List Char)
    (llm : Except Unit (List Char))
    (h : anyKeywordIn research_keywords (pyLower message) = true) :
    determine_query_type_with_llm message false false llm = qtWeb := by
  cases llm with
  | error e => rfl
  | ok reply =>
    show classifier_return false false
        (override_document_search_absent false
          (rewrite_needs_csv false false
            (override_research_keywords message false false
              (override_document_keywords message false
                (override_document_search_absent false (sanitize_query_type reply))))))
        = qtWeb
    have h4 : override_research_keywords message false false
        (override_document_keywords message false
          (override_document_search_absent false (sanitize_query_type reply)))
        = qtWeb := by
      generalize override_document_keywords message false
          (override_document_search_absent false (sanitize_query_type reply)) = qt
      unfold override_research_keywords
      by_cases hq : qt = qtWeb
      · simp [hq]
      · simp [h, hq]
    rw [h4]
    exact classifier_tail_fixes_web false false

/-- Witness for C3: a research message with no attached resources, against a
    model that wrongly answers `csv_only`. -/
theorem classifier_research_keyword_override_witness :
    determine_query_type_with_llm "tell me about Tesla".toList false false
      (.ok qtCsvOnly) = qtWeb :=
  classifier_research_keyword_override _ _ (by decide)

/-! ## C4: the result interpreter explanation -/

theorem chat_csv_response_text_ne_empty (s : String) :
    chat_csv_response_text s ≠ "" := by
  unfold chat_csv_response_text
  split
  · decide
  · assumption

/-- Claim C4, refuting theorem: on a successful execution with no captured
    output and one saved chart, the explanation is the line-1997 attempts
    message, which does not mention charts at all — there is no templated
    chart-count explanation in the source. -/
theorem result_interpreter_no_chart_count_message :
    chat_csv_analysis_result false (.ok "model text") "" 0
        ["chart_default_20240101.png"] =
      "Code executed successfully after 1 attempt(s)."
    ∧ isSubstr "chart".toList
        "Code executed successfully after 1 attempt(s).".toList = false := by
  constructor
  · decide
  · decide

/-- Claim C4 as amended: the caller-facing explanation is non-empty in all
    four output/chart combinations (the line-2053 `or` supplies the final
    fallback), and in the no-textual-output case it is the attempts message
    of line 1997 regardless of the chart list. -/
theorem result_interpreter_explanation_nonempty (execution_has_output : Bool)
    (llm : Except Unit String) (results_summary : String) (retry_count : Nat)
    (csv_charts : List String) :
    chat_csv_response_text
        (chat_csv_analysis_result execution_has_output llm results_summary
          retry_count csv_charts) ≠ ""
    ∧ chat_csv_analysis_result false llm results_summary retry_count csv_charts =
        "Code executed successfully after " ++ toString (retry_count + 1)
          ++ " attempt(s)." := by
  exact ⟨chat_csv_response_text_ne_empty _, rfl⟩

/-! ## C7: advantage / gap set algebra -/

/-- Claim C7: for every profile and non-empty competitor list, the advantage
    set and the gap set are disjoint, and together with the shared features
    they cover exactly the feature names seen across the profile and all
    competitor records. -/
theorem advantages_gaps_partition (company : CompanyData)
    (competitors : List CompanyData) (hne : competitors ≠ []) :
    Disjoint (identify_advantages_set company competitors)
        (identify_gaps_set company competitors)
    ∧ identify_advantages_set company competitors
        ∪ identify_gaps_set company competitors
        ∪ shared_features company competitors
        = all_feature_names company competitors := by
  constructor
  · exact disjoint_sdiff_sdiff
  · unfold identify_advantages_set identify_gaps_set shared_features
      all_feature_names
    ext x
    simp only [Finset.mem_union, Finset.mem_sdiff, Finset.mem_inter]
    tauto

/-- Witness for C7: one profile and one competitor with overlapping
    features. -/
theorem advantages_gaps_partition_witness :
    Disjoint
        (identify_advantages_set ⟨["Alerts".toList, "Export".toList]⟩
          [⟨["Export".toList, "Sso".toList]⟩])
        (identify_gaps_set ⟨["Alerts".toList, "Export".toList]⟩
          [⟨["Export".toList, "Sso".toList]⟩])
    ∧ identify_advantages_set ⟨["Alerts".toList, "Export".toList]⟩
          [⟨["Export".toList, "Sso".toList]⟩]
        ∪ identify_gaps_set ⟨["Alerts".toList, "Export".toList]⟩
          [⟨["Export".toList, "Sso".toList]⟩]
        ∪ shared_features ⟨["Alerts".toList, "Export".toList]⟩
          [⟨["Export".toList, "Sso".toList]⟩]
        = all_feature_names ⟨["Alerts".toList, "Export".toList]⟩
          [⟨["Export".toList, "Sso".toList]⟩] :=
  advantages_gaps_partition _ _ (by decide)

/-! ## C5 and C9: the indentation repair -/

theorem dropWhile_self_idem (p : Char → Bool) (l : List Char) :
    (l.dropWhile p).dropWhile p = l.dropWhile p := by
  induction l with
  | nil => rfl
  | cons c rest ih =>
    by_cases hc : p c
    · simpa [List.dropWhile_cons, hc] using ih
    · simp [List.dropWhile_cons, hc]

theorem dropWhile_replicate_space (m : Nat) (t : List Char) :
    (List.replicate m ' ' ++ t).dropWhile isPyWs = t.dropWhile isPyWs := by
  induction m with
  | zero => rfl
  | succ n ih => simpa [List.replicate_succ, isPyWs] using ih

theorem splitLinesChar_ne_nil (s : List Char) : splitLinesChar s ≠ [] := by
  cases s with
  | nil => simp [splitLinesChar]
  | cons c rest =>
    unfold splitLinesChar
    split
    · simp
    · split <;> simp

theorem splitLinesChar_no_newline_mem (s : List Char) :
    ∀ l ∈ splitLinesChar s, '\n' ∉ l := by
  induction s with
  | nil => intro l hl; simp [splitLinesChar] at hl; simp [hl]
  | cons c rest ih =>
    intro l hl
    unfold splitLinesChar at hl
    by_cases hc : c = '\n'
    · rw [if_pos hc] at hl
      rcases List.mem_cons.mp hl with hl1 | hl1
      · simp [hl1]
      · exact ih l hl1
    · rw [if_neg hc] at hl
      rcases hsplit : splitLinesChar rest with _ | ⟨l0, ls⟩
      · exact absurd hsplit (splitLinesChar_ne_nil rest)
      · rw [hsplit] at hl
        rcases List.mem_cons.mp hl with hl1 | hl1
        · subst hl1
          intro hmem
          rcases List.mem_cons.mp hmem with h1 | h1
          · exact hc h1.symm
          · exact ih l0 (hsplit ▸ List.mem_cons_self l0 ls) h1
        · exact ih l (hsplit ▸ List.mem_cons_of_mem l0 hl1)

theorem splitLinesChar_of_no_newline (l : List Char) (h : '\n' ∉ l) :
    splitLinesChar l = [l] := by
  induction l with
  | nil => rfl
  | cons c rest ih =>
    have hc : ¬(c = '\n') := fun hcc => h (hcc ▸ List.mem_cons_self c rest)
    have hrest : '\n' ∉ rest := fun hm => h (List.mem_cons_of_mem c hm)
    unfold splitLinesChar
    rw [if_neg hc, ih hrest]

theorem splitLinesChar_append_newline (l t : List Char) (h : '\n' ∉ l) :
    splitLinesChar (l ++ '\n' :: t) = l :: splitLinesChar t := by
  induction l with
  | nil => simp [splitLinesChar]
  | cons c rest ih =>
    have hc : ¬(c = '\n') := fun hcc => h (hcc ▸ List.mem_cons_self c rest)
    have hrest : '\n' ∉ rest := fun hm => h (List.mem_cons_of_mem c hm)
    show splitLinesChar (c :: (rest ++ '\n' :: t)) = (c :: rest) :: splitLinesChar t
    rw [splitLinesChar]
    rw [if_neg hc, ih hrest]

theorem splitLinesChar_joinLinesChar (ls : List (List Char))
    (hnl : ∀ l ∈ ls, '\n' ∉ l) (hne : ls ≠ []) :
    splitLinesChar (joinLinesChar ls) = ls := by
  induction ls with
  | nil => exact absurd rfl hne
  | cons l rest ih =>
    cases rest with
    | nil =>
      simp only [joinLinesChar]
      exact splitLinesChar_of_no_newline l (hnl l (List.mem_cons_self l []))
    | cons l' rest' =>
      have h1 : '\n' ∉ l := hnl l (List.mem_cons_self l _)
      have h2 : ∀ x ∈ l' :: rest', '\n' ∉ x := fun x hx =>
        hnl x (List.mem_cons_of_mem l hx)
      simp only [joinLinesChar]
      rw [splitLinesChar_append_newline l _ h1, ih h2 (by simp)]

theorem pyLstrip_replicate_space (m : Nat) (t : List Char) :
    pyLstrip (List.replicate m ' ' ++ t) = pyLstrip t :=
  dropWhile_replicate_space m t

theorem pyLstrip_idem (l : List Char) : pyLstrip (pyLstrip l) = pyLstrip l :=
  dropWhile_self_idem isPyWs l

theorem fixLines_length (ls : List (List Char)) : ∀ level pending,
    (fixLines level pending ls).length = ls.length := by
  induction ls with
  | nil => intro _ _; rfl
  | cons line rest ih =>
    intro level pending
    simp only [fixLines]
    split <;> simp [ih]

theorem fixLines_no_newline (ls : List (List Char)) : ∀ level pending,
    (∀ l ∈ ls, '\n' ∉ l) → ∀ l' ∈ fixLines level pending ls, '\n' ∉ l' := by
  induction ls with
  | nil => intro _ _ _ l' hl'; simp [fixLines] at hl'
  | cons line rest ih =>
    intro level pending hls l' hl'
    have hline : '\n' ∉ line := hls line (List.mem_cons_self _ _)
    have hrest : ∀ l ∈ rest, '\n' ∉ l := fun l hl => hls l (List.mem_cons_of_mem _ hl)
    simp only [fixLines] at hl'
    split at hl'
    · rcases List.mem_cons.mp hl' with h1 | h1
      · exact h1 ▸ hline
      · exact ih level pending hrest l' h1
    · rcases List.mem_cons.mp hl' with h1 | h1
      · subst h1
        intro hmem
        rcases List.mem_append.mp hmem with hm | hm
        · exact absurd (List.eq_of_mem_replicate hm) (by decide)
        · exact hline (List.dropWhile_subset isPyWs hm)
      · exact ih _ _ hrest l' h1

theorem fixLines_idem (ls : List (List Char)) : ∀ level pending,
    fixLines level pending (fixLines level pending ls) = fixLines level pending ls := by
  induction ls with
  | nil => intro _ _; rfl
  | cons line rest ih =>
    intro level pending
    by_cases hb : lineIsSkippable (pyLstrip line)
    · simp only [fixLines]
      rw [if_pos hb]
      simp only [fixLines]
      rw [if_pos hb, ih]
    · simp only [fixLines]
      rw [if_neg hb]
      have hstr : pyLstrip
          (List.replicate (stepLevel level pending (pyLstrip line)) ' '
            ++ pyLstrip line) = pyLstrip line := by
        rw [pyLstrip_replicate_space, pyLstrip_idem]
      simp only [fixLines]
      rw [hstr, if_neg hb, ih]

theorem fixLines_forall₂ (ls : List (List Char)) : ∀ level pending,
    List.Forall₂
      (fun a b => pyLstrip b = pyLstrip a ∧ (lineIsSkippable (pyLstrip a) → b = a))
      ls (fixLines level pending ls) := by
  induction ls with
  | nil => intro _ _; exact List.Forall₂.nil
  | cons line rest ih =>
    intro level pending
    simp only [fixLines]
    split
    · exact List.Forall₂.cons ⟨rfl, fun _ => rfl⟩ (ih _ _)
    · rename_i hb
      refine List.Forall₂.cons ⟨?_, fun hsk => absurd hsk hb⟩ (ih _ _)
      rw [pyLstrip_replicate_space, pyLstrip_idem]

theorem splitLinesChar_fix_code_indentation (s : List Char) :
    splitLinesChar (fix_code_indentation s)
      = fixLines 0 false (splitLinesChar s) := by
  unfold fix_code_indentation
  have hout_nl : ∀ l ∈ fixLines 0 false (splitLinesChar s), '\n' ∉ l :=
    fixLines_no_newline _ 0 false (splitLinesChar_no_newline_mem s)
  have hout_ne : fixLines 0 false (splitLinesChar s) ≠ [] := by
    intro hc
    have h1 := fixLines_length (splitLinesChar s) 0 false
    rw [hc] at h1
    exact splitLinesChar_ne_nil s (List.length_eq_zero.mp h1.symm)
  exact splitLinesChar_joinLinesChar _ hout_nl hout_ne

/-- Claim C5: the indentation repair is idempotent — running
    `fix_code_indentation` on its own output returns the output unchanged. -/
theorem fix_code_indentation_idempotent (s : List Char) :
    fix_code_indentation (fix_code_indentation s) = fix_code_indentation s := by
  conv_lhs => rw [fix_code_indentation]
  rw [splitLinesChar_fix_code_indentation s, fixLines_idem]
  rfl

/-- Claim C9: the repair preserves the number of lines, returns blank and
    comment lines unchanged, and rewrites only the leading whitespace of every
    other line (the stripped text of each output line equals that of the
    corresponding input line). -/
theorem fix_code_indentation_line_preservation (s : List Char) :
    (splitLinesChar (fix_code_indentation s)).length = (splitLinesChar s).length
    ∧ List.Forall₂
        (fun a b => pyLstrip b = pyLstrip a ∧ (lineIsSkippable (pyLstrip a) → b = a))
        (splitLinesChar s) (splitLinesChar (fix_code_indentation s)) := by
  rw [splitLinesChar_fix_code_indentation s]
  exact ⟨fixLines_length _ 0 false, fixLines_forall₂ _ 0 false⟩

/-! ## C6: the response extractor -/

theorem isPrefixOf_self_append (tok t : List Char) :
    tok.isPrefixOf (tok ++ t) = true := by
  induction tok with
  | nil => simp [List.isPrefixOf]
  | cons c cs ih => simpa [List.isPrefixOf] using ih

theorem isPrefixOf_cons_false (c₀ : Char) (p : List Char) (c : Char)
    (s : List Char) (h : c ≠ c₀) : (c₀ :: p).isPrefixOf (c :: s) = false := by
  simp [List.isPrefixOf]
  intro hc
  exact absurd hc.symm h

theorem fence_isPrefixOf_cons_false (c : Char) (s : List Char) (h : c ≠ btick) :
    fenceTok.isPrefixOf (c :: s) = false := by
  have hf : fenceTok = btick :: [btick, btick] := rfl
  rw [hf]
  exact isPrefixOf_cons_false btick [btick, btick] c s h

theorem dropWhile_append_head_false (p : Char → Bool) (a : List Char) (c : Char)
    (cs : List Char) (hc : p c = false) :
    (a ++ c :: cs).dropWhile p = a.dropWhile p ++ c :: cs := by
  induction a with
  | nil => simp [List.dropWhile_cons, hc]
  | cons x a' ih =>
    by_cases hx : p x
    · simpa [List.dropWhile_cons, hx] using ih
    · simp [List.dropWhile_cons, hx]

theorem findSub_zero (pat s : List Char) (h : pat.isPrefixOf s = true) :
    findSub pat s = some 0 := by
  cases s with
  | nil => rw [findSub, if_pos h]
  | cons c r => rw [findSub, if_pos h]

theorem findSub_fence_boundary (a rest : List Char) (ha : btick ∉ a) :
    findSub fenceTok (a ++ fenceTok ++ rest) = some a.length := by
  induction a with
  | nil =>
    show findSub fenceTok (fenceTok ++ rest) = some 0
    exact findSub_zero _ _ (isPrefixOf_self_append fenceTok rest)
  | cons c a' ih =>
    have hcb : c ≠ btick := fun hcc => ha (hcc ▸ List.mem_cons_self c a')
    have ha' : btick ∉ a' := fun hm => ha (List.mem_cons_of_mem c hm)
    show findSub fenceTok (c :: (a' ++ fenceTok ++ rest)) = some (a'.length + 1)
    rw [findSub, fence_isPrefixOf_cons_false c _ hcb]
    rw [if_neg (by simp), ih ha']
    rfl

theorem scanFence_append_no_tok (tok : List Char)
    (bodyf : List Char → Option (List Char)) (pre s : List Char)
    (hpre : ∀ j, j < pre.length → tok.isPrefixOf ((pre ++ s).drop j) = false) :
    scanFence tok bodyf (pre ++ s) = scanFence tok bodyf s := by
  induction pre with
  | nil => rfl
  | cons c pre' ih =>
    have h0 : tok.isPrefixOf (c :: (pre' ++ s)) = false := by
      have := hpre 0 (by simp)
      simpa using this
    show scanFence tok bodyf (c :: (pre' ++ s)) = scanFence tok bodyf s
    rw [scanFence, h0]
    exact ih (fun j hj => by simpa using hpre (j + 1) (by simpa using hj))

theorem scanFence_cons_found (tok : List Char)
    (bodyf : List Char → Option (List Char)) (c : Char) (s : List Char)
    (htok : tok.isPrefixOf (c :: s) = true)
    (r : List Char) (hb : bodyf ((c :: s).drop tok.length) = some r) :
    scanFence tok bodyf (c :: s) = some r := by
  rw [scanFence, htok]
  simp [hb]

theorem fenceBodyNl_at_fence (body post : List Char) (hb : btick ∉ body) :
    fenceBodyNl ('\n' :: (body ++ fenceTok ++ post))
      = some (pyLstrip body) := by
  have hsplit : body ++ fenceTok ++ post = body ++ btick :: ([btick, btick] ++ post) := by
    simp [fenceTok]
  have hdw : (body ++ fenceTok ++ post).dropWhile isPyWs
      = body.dropWhile isPyWs ++ fenceTok ++ post := by
    rw [hsplit, dropWhile_append_head_false isPyWs body btick _ (by decide)]
    simp [fenceTok]
  have hrun : '\n' ∈ ('\n' :: (body ++ fenceTok ++ post)).takeWhile isPyWs := by
    rw [List.takeWhile_cons_of_pos (by decide : isPyWs '\n' = true)]
    exact List.mem_cons_self _ _
  have hdw_no_btick : btick ∉ body.dropWhile isPyWs :=
    fun hm => hb (List.dropWhile_subset isPyWs hm)
  unfold fenceBodyNl
  rw [if_pos hrun]
  rw [List.dropWhile_cons_of_pos (by decide : isPyWs '\n' = true), hdw]
  show (match findSub fenceTok (body.dropWhile isPyWs ++ fenceTok ++ post) with
    | some j => some ((body.dropWhile isPyWs ++ fenceTok ++ post).take j)
    | none => none) = some (pyLstrip body)
  rw [findSub_fence_boundary _ _ hdw_no_btick]
  show some ((body.dropWhile isPyWs ++ fenceTok ++ post).take
      (body.dropWhile isPyWs).length) = some (pyLstrip body)
  rw [List.append_assoc, List.take_left]
  rfl

theorem scanFence_found (tok : List Char) (bodyf : List Char → Option (List Char))
    (s : List Char) (hs : s ≠ []) (htok : tok.isPrefixOf s = true)
    (r : List Char) (hb : bodyf (s.drop tok.length) = some r) :
    scanFence tok bodyf s = some r := by
  cases s with
  | nil => exact absurd rfl hs
  | cons c cs =>
    rw [scanFence, if_pos htok, hb]

theorem pyStrip_pyLstrip (l : List Char) : pyStrip (pyLstrip l) = pyStrip l := by
  unfold pyStrip
  rw [pyLstrip_idem]

/-- Claim C6.  First conjunct: for a text whose first python-tagged fence
    opens at position `|pre|` (no earlier position starts `pyFenceTok`) with a
    backtick-free block body, the extractor returns exactly that block's
    stripped content normalized by `fix_code_indentation`.  Second conjunct:
    the extractor returns `none` exactly when all six extraction methods
    fail. -/
theorem extract_code_first_python_fence :
    (∀ (pre body post : List Char),
      (∀ j, j < pre.length →
        pyFenceTok.isPrefixOf
          ((pre ++ (pyFenceTok ++ '\n' :: (body ++ fenceTok ++ post))).drop j)
          = false) →
      btick ∉ body →
      extract_code_from_response
          (pre ++ (pyFenceTok ++ '\n' :: (body ++ fenceTok ++ post)))
        = some (fix_code_indentation (pyStrip body)))
    ∧ (∀ text, extract_code_from_response text = none ↔
        (scanFence pyFenceTok fenceBodyNl text = none
         ∧ scanFence fenceTok fenceBodyNl text = none
         ∧ scanFence pyFenceTok fenceBodyRaw text = none
         ∧ scanFence fenceTok fenceBodyRaw text = none
         ∧ looksLikeRawCode text = false
         ∧ looksLikePandasOps text = false)) := by
  constructor
  · intro pre body post hpre hbody
    have hscan : scanFence pyFenceTok fenceBodyNl
        (pre ++ (pyFenceTok ++ '\n' :: (body ++ fenceTok ++ post)))
        = some (pyLstrip body) := by
      rw [scanFence_append_no_tok pyFenceTok fenceBodyNl pre _ hpre]
      apply scanFence_found
      · simp [pyFenceTok, fenceTok]
      · exact isPrefixOf_self_append _ _
      · show fenceBodyNl
            ((pyFenceTok ++ '\n' :: (body ++ fenceTok ++ post)).drop
              pyFenceTok.length) = some (pyLstrip body)
        rw [List.drop_left]
        exact fenceBodyNl_at_fence body post hbody
    unfold extract_code_from_response
    rw [hscan]
    show some (fix_code_indentation (pyStrip (pyLstrip body)))
        = some (fix_code_indentation (pyStrip body))
    rw [pyStrip_pyLstrip]
  · intro text
    unfold extract_code_from_response
    cases h1 : scanFence pyFenceTok fenceBodyNl text with
    | some c => simp [h1]
    | none =>
    cases h2 : scanFence fenceTok fenceBodyNl text with
    | some c => simp [h2]
    | none =>
    cases h3 : scanFence pyFenceTok fenceBodyRaw text with
    | some c => simp [h3]
    | none =>
    cases h4 : scanFence fenceTok fenceBodyRaw text with
    | some c => simp [h4]
    | none =>
    cases h5 : looksLikeRawCode text <;> cases h6 : looksLikePandasOps text <;>
      simp [h5, h6]

/-- Witness for C6: a chatty reply with one python fence. -/
theorem extract_code_first_python_fence_witness :
    extract_code_from_response ("Sure: ".toList ++ (pyFenceTok ++ '\n' ::
        ("x = 1".toList ++ fenceTok ++ " done".toList)))
      = some ("x = 1".toList) := by
  have h := (extract_code_first_python_fence).1 "Sure: ".toList "x = 1".toList
    " done".toList (by decide) (by decide)
  rw [h]
  decide

/-! ## C8: session teardown -/

theorem findSession_removeSession_self {α : Type} (k : List Char)
    (l : List (List Char × α)) : findSession k (removeSession k l) = none := by
  induction l with
  | nil => rfl
  | cons p rest ih =>
    obtain ⟨k', v⟩ := p
    by_cases hp : k' = k
    · simpa [removeSession, hp] using ih
    · simpa [removeSession, findSession, hp] using ih

theorem removeSession_idem {α : Type} (k : List Char)
    (l : List (List Char × α)) :
    removeSession k (removeSession k l) = removeSession k l := by
  simp [removeSession, List.filter_filter]

theorem findSession_none_removeSession {α : Type} (k : List Char)
    (l : List (List Char × α)) (h : findSession k l = none) :
    removeSession k l = l := by
  induction l with
  | nil => rfl
  | cons p rest ih =>
    obtain ⟨k', v⟩ := p
    by_cases hp : k' = k
    · simp [findSession, hp] at h
    · simp only [findSession, if_neg hp] at h
      simp only [removeSession, List.filter_cons] at ih ⊢
      rw [if_pos (by simp [hp])]
      rw [ih h]

/-- Normal form of `cleanup_sandbox`: both dicts lose the key, the stub log
    records the session's handle when one was registered. -/
theorem cleanup_sandbox_eq (sid : List Char) (st : SandboxRegistry) :
    cleanup_sandbox sid st =
      { active := removeSession sid st.active,
        uploaded := removeSession sid st.uploaded,
        nextHandle := st.nextHandle,
        closedLog :=
          match findSession sid st.active with
          | some h => st.closedLog ++ [h]
          | none => st.closedLog } := by
  unfold cleanup_sandbox
  cases hA : findSession sid st.active with
  | some h =>
    dsimp only
    split
    · rfl
    · rename_i hup
      simp only [Option.isSome_iff_exists, not_exists] at hup
      have : findSession sid st.uploaded = none := by
        cases hu : findSession sid st.uploaded with
        | none => rfl
        | some v => exact absurd hu (hup v)
      rw [findSession_none_removeSession sid st.uploaded this]
  | none =>
    dsimp only
    split
    · rw [findSession_none_removeSession sid st.active hA]
    · rename_i hup
      simp only [Option.isSome_iff_exists, not_exists] at hup
      have hu : findSession sid st.uploaded = none := by
        cases hu : findSession sid st.uploaded with
        | none => rfl
        | some v => exact absurd hu (hup v)
      rw [findSession_none_removeSession sid st.active hA,
          findSession_none_removeSession sid st.uploaded hu]

theorem get_or_create_registers (sid : List Char) (st : SandboxRegistry)
    (h : Nat) (st' : SandboxRegistry)
    (hg : get_or_create_sandbox sid st = (h, st')) :
    findSession sid st'.active = some h := by
  unfold get_or_create_sandbox at hg
  cases hf : findSession sid st.active with
  | some h0 =>
    rw [hf] at hg
    cases hg
    exact hf
  | none =>
    rw [hf] at hg
    cases hg
    simp [findSession]

/-- Claim C8: session teardown is idempotent, always reports success, leaves
    no handle registered for the key, is silent on a never-created key, and
    the handle obtained from `get_or_create_sandbox` is closed exactly once
    by the teardown. -/
theorem session_teardown_idempotent (sid : List Char) (st : SandboxRegistry) :
    cleanup_sandbox sid (cleanup_sandbox sid st) = cleanup_sandbox sid st
    ∧ (close_session sid st).1 = true
    ∧ findSession sid (cleanup_sandbox sid st).active = none
    ∧ (findSession sid st.active = none →
        (cleanup_sandbox sid st).closedLog = st.closedLog)
    ∧ (∀ (h : Nat) (st' : SandboxRegistry),
        get_or_create_sandbox sid st = (h, st') →
        (cleanup_sandbox sid st').closedLog = st'.closedLog ++ [h]) := by
  refine ⟨?_, rfl, ?_, ?_, ?_⟩
  · rw [cleanup_sandbox_eq sid st, cleanup_sandbox_eq sid]
    simp [findSession_removeSession_self, removeSession_idem]
  · rw [cleanup_sandbox_eq sid st]
    exact findSession_removeSession_self sid st.active
  · intro hnone
    rw [cleanup_sandbox_eq sid st, hnone]
  · intro h st' hg
    rw [cleanup_sandbox_eq sid st', get_or_create_registers sid st h st' hg]

/-- Witness for C8: a registry with one other session, closing a fresh
    session created by `get_or_create_sandbox`. -/
theorem session_teardown_idempotent_witness :
    cleanup_sandbox "alpha".toList
        (cleanup_sandbox "alpha".toList
          (⟨[("beta".toList, 0)], [], 1, []⟩ : SandboxRegistry))
      = cleanup_sandbox "alpha".toList
          (⟨[("beta".toList, 0)], [], 1, []⟩ : SandboxRegistry)
    ∧ (cleanup_sandbox "alpha".toList
        (get_or_create_sandbox "alpha".toList
          (⟨[("beta".toList, 0)], [], 1, []⟩ : SandboxRegistry)).2).closedLog
      = (get_or_create_sandbox "alpha".toList
          (⟨[("beta".toList, 0)], [], 1, []⟩ : SandboxRegistry)).2.closedLog ++ [1] :=
  ⟨(session_teardown_idempotent "alpha".toList
      (⟨[("beta".toList, 0)], [], 1, []⟩ : SandboxRegistry)).1,
   (session_teardown_idempotent "alpha".toList
      (⟨[("beta".toList, 0)], [], 1, []⟩ : SandboxRegistry)).2.2.2.2 1 _ (by decide)⟩

/-! ## C10: competitor result parsing -/

theorem http_isPrefixOf_https_append (u : List Char) :
    "http".toList.isPrefixOf ("https://".toList ++ u) = true := by
  show List.isPrefixOf ['h', 't', 't', 'p']
      (['h', 't', 't', 'p', 's', ':', '/', '/'] ++ u) = true
  simp [List.isPrefixOf]

theorem parseCompetitorsGo_spec (text exclude : List Char)
    (urls : List (List Char)) :
    ∀ seen : List (List Char),
      (∀ p ∈ parseCompetitorsGo text exclude seen urls,
          p.1 ∉ seen
          ∧ (exclude ≠ [] → isSubstr (pyLower exclude) (pyLower p.1) = false)
          ∧ "http".toList.isPrefixOf p.2.url = true)
      ∧ ((parseCompetitorsGo text exclude seen urls).map (fun p => p.1)).Nodup := by
  induction urls with
  | nil =>
    intro seen
    exact ⟨fun p hp => absurd hp (List.not_mem_nil p), List.nodup_nil⟩
  | cons url0 rest ih =>
    intro seen
    simp only [parseCompetitorsGo]
    cases hd : extractDomain (rstripPunct url0) with
    | none => exact ih seen
    | some domain =>
      dsimp only
      by_cases hm : domain ∈ seen
      · rw [if_pos hm]
        exact ih seen
      · rw [if_neg hm]
        by_cases hex : (!(exclude = [])
            && isSubstr (pyLower exclude) (pyLower domain)) = true
        · rw [if_pos hex]
          exact ih seen
        · rw [if_neg hex]
          obtain ⟨ihmem, ihnodup⟩ := ih (domain :: seen)
          constructor
          · intro p hp
            rcases List.mem_cons.mp hp with hp1 | hp1
            · subst hp1
              refine ⟨hm, ?_, ?_⟩
              · intro hexne
                have hne : (!(exclude = [])) = true := by simp [hexne]
                simp only [Bool.and_eq_true, hne, true_and] at hex
                simpa using hex
              · show "http".toList.isPrefixOf
                    (if "http".toList.isPrefixOf (rstripPunct url0) then
                      rstripPunct url0
                    else "https://".toList ++ rstripPunct url0) = true
                by_cases hh : "http".toList.isPrefixOf (rstripPunct url0) = true
                · rw [if_pos hh]
                  exact hh
                · rw [if_neg hh]
                  exact http_isPrefixOf_https_append _
            · have hrec := ihmem p hp1
              exact ⟨fun hmem => hrec.1 (List.mem_cons_of_mem _ hmem),
                hrec.2.1, hrec.2.2⟩
          · rw [List.map_cons]
            refine List.nodup_cons.mpr ⟨?_, ihnodup⟩
            intro hmem
            obtain ⟨p, hp, hfst⟩ := List.mem_map.mp hmem
            exact (ihmem p hp).1 (hfst ▸ List.mem_cons_self _ _)

/-- Claim C10: the parsed competitor list keeps at most one entry per
    extracted domain, keeps no entry whose domain contains the (non-empty)
    excluded company name case-insensitively, and gives every entry a url
    starting with `http`. -/
theorem parse_competitor_results_invariants (text exclude : List Char) :
    parse_competitor_results text exclude
        = (parse_competitor_entries text exclude).map (fun p => p.2)
    ∧ ((parse_competitor_entries text exclude).map (fun p => p.1)).Nodup
    ∧ (∀ p ∈ parse_competitor_entries text exclude,
        (exclude ≠ [] → isSubstr (pyLower exclude) (pyLower p.1) = false)
        ∧ "http".toList.isPrefixOf p.2.url = true) := by
  have hspec := parseCompetitorsGo_spec text exclude (findUrls text) []
  exact ⟨rfl, hspec.2, fun p hp => ⟨(hspec.1 p hp).2.1, (hspec.1 p hp).2.2⟩⟩

/-- Witness for C10: a reply with a repeated domain and the excluded company
    present. -/
theorem parse_competitor_results_invariants_witness :
    ((parse_competitor_entries "See https://a.io/x https://a.io/y www.me.com".toList
        "me".toList).map (fun p => p.1)).Nodup
    ∧ (∀ p ∈ parse_competitor_entries
          "See https://a.io/x https://a.io/y www.me.com".toList "me".toList,
        isSubstr (pyLower "me".toList) (pyLower p.1) = false
        ∧ "http".toList.isPrefixOf p.2.url = true) :=
  ⟨(parse_competitor_results_invariants _ _).2.1,
   fun p hp =>
    ⟨((parse_competitor_results_invariants _ _).2.2 p hp).1 (by decide),
     ((parse_competitor_results_invariants _ _).2.2 p hp).2⟩⟩

end E2B
